import Mathlib

/-!
Verification of the Rhea board bring-up (src/hw/riscv/rhea.c).

The file shallowly embeds the construction sequence `rhea_machine_init`
as a function from an abstract machine state to a trace of observable
construction events (hart-array realizations, region mounts, blob
writes) together with an optional fatal error (`exit(1)` in the C code
is modelled as an error value; the events already emitted are kept in
the trace, since they happened before the process died).

External collaborators (the topology provider `riscv_socket_*`, the
SMP limit check of the generic machine framework) are not under src/,
so they are modelled from the spec, as marked on each definition.
-/

namespace Rhea

/-- 1 KiB, as in qemu/units.h. -/
def KiB : Nat := 1024

/-- 1 MiB, as in qemu/units.h. -/
def MiB : Nat := 1024 * 1024

/-- `#define RHEA_RISCV_CPUS_MAX 4` (rhea.c line 15). -/
def RHEA_RISCV_CPUS_MAX : Nat := 4

/-- `#define RHEA_SOCKETS_MAX 1` (rhea.c line 16). -/
def RHEA_SOCKETS_MAX : Nat := 1

/-- One entry of the fixed memory map: base address and size. -/
structure MemMapEntry where
  base : Nat
  size : Nat
deriving DecidableEq, Repr

/-- The index enum of `rhea_memmap` (rhea.c lines 27-32). -/
inductive RheaIdx : Type
  | RHEA_ROM
  | RHEA_SRAM
  | RHEA_UART0
  | RHEA_DRAM
deriving DecidableEq

/-- The fixed memory map table `rhea_memmap` (rhea.c lines 33-38). -/
def rhea_memmap : RheaIdx → MemMapEntry
  | .RHEA_ROM => ⟨0x00000000, 256 * KiB⟩
  | .RHEA_SRAM => ⟨0x00100000, 512 * KiB⟩
  | .RHEA_UART0 => ⟨0x06000000, 0x100⟩
  | .RHEA_DRAM => ⟨0x40000000, 570 * MiB⟩

/-- Modelled from the spec: the topology provider's per-socket answers
(queries `riscv_socket_check_hartids`, `riscv_socket_first_hartid`,
`riscv_socket_hart_count` live in hw/riscv/numa.c, outside src/).
A negative `first_hartid` or `hart_count` means "cannot be found",
matching the `< 0` checks in rhea.c. -/
structure SocketInfo where
  check_hartids : Bool
  first_hartid : Int
  hart_count : Int
deriving DecidableEq, Repr

/-- Modelled from the spec: the slice of `MachineState` that
`rhea_machine_init` consumes — per-socket topology answers, the
configured cpu type, the requested total hart count (`smp.cpus`), and
the size of the externally supplied RAM backing (`ms->ram`). -/
structure MachineState where
  sockets : List SocketInfo
  cpu_type : String
  smp_cpus : Nat
  ram_size : Nat
deriving DecidableEq

/-- The fatal construction errors. The first four are the
`error_report` + `exit(1)` branches of `rhea_machine_init`
(rhea.c lines 50-73), named as in the spec;
`TooManyHarts` is the generic machine framework's rejection of a
configuration exceeding `mc->max_cpus` (modelled from the spec's
hart_limit). -/
inductive RheaError : Type
  | TooManySockets
  | DiscontinuousHartIds (socket : Nat)
  | MissingBaseHartId (socket : Nat)
  | MissingHartCount (socket : Nat)
  | TooManyHarts
deriving DecidableEq, Repr

/-- An observable event of the construction sequence: realization of a
socket's hart array with its configured properties, mounting a region
into the system address space (`memory_region_add_subregion`), or
writing a blob into the address space (`rom_add_blob_fixed_as`). -/
inductive InitEvent : Type
  | realize_hart_array (socket : Nat) (cpu_type : String)
      (hartid_base : Int) (num_harts : Int) (resetvec : Nat)
  | mount (name : String) (base : Nat) (size : Nat)
  | write_blob (name : String) (addr : Nat) (data : List Nat)
deriving DecidableEq, Repr

/-- A default event used with `List.getD`; it is neither a
realization, nor a mount, nor a blob write of interest. -/
def dummy_event : InitEvent := .mount "" 0 0

def is_realize : InitEvent → Bool
  | .realize_hart_array _ _ _ _ _ => true
  | _ => false

def is_mount : InitEvent → Bool
  | .mount _ _ _ => true
  | _ => false

/-- The mount of the boot-ROM region `"riscv.rhea.mrom"`. -/
def is_rom_mount : InitEvent → Bool
  | .mount n _ _ => n == "riscv.rhea.mrom"
  | _ => false

def is_blob_write : InitEvent → Bool
  | .write_blob _ _ _ => true
  | _ => false

/-- `uint32_t reset_vec[4] = { 0x0000006f };` (rhea.c lines 99-101):
four 32-bit words, only the first initialized, the rest
zero-initialized by C semantics. -/
def reset_vec : List Nat := [0x0000006f, 0, 0, 0]

/-- Little-endian byte serialization of a 32-bit word. -/
def u32_le_bytes (w : Nat) : List Nat :=
  [w % 2 ^ 8, w / 2 ^ 8 % 2 ^ 8, w / 2 ^ 16 % 2 ^ 8, w / 2 ^ 24 % 2 ^ 8]

/-- The byte image of `reset_vec` as passed to `rom_add_blob_fixed_as`
with `sizeof(reset_vec)` = 16 bytes. -/
def reset_vec_bytes : List Nat := (reset_vec.map u32_le_bytes).flatten

/-- Writing a blob of bytes at an address over existing contents
(the effect of `rom_add_blob_fixed_as` on the ROM bytes). -/
def apply_blob (rom : Nat → Nat) (addr : Nat) (data : List Nat) : Nat → Nat :=
  fun off =>
    if addr ≤ off ∧ off < addr + data.length then data.getD (off - addr) 0
    else rom off

/-- The BootSeeder: write the fixed reset blob at the reset address
(rhea.c lines 99-103). -/
def seed (rom : Nat → Nat) (reset_addr : Nat) : Nat → Nat :=
  apply_blob rom reset_addr reset_vec_bytes

/-- A freshly created ROM region is zero-filled. -/
def zero_rom : Nat → Nat := fun _ => 0

/-- The per-socket loop of `rhea_machine_init` (rhea.c lines 57-88):
for socket `i`, check hart-id contiguity, base hart id and hart count
in that order, aborting on the first failure; otherwise configure and
realize the socket's hart array and continue with the next socket. -/
def sockets_loop (ct : String) (resetvec : Nat) :
    Nat → List SocketInfo → List InitEvent × Option RheaError
  | _, [] => ([], none)
  | i, sk :: rest =>
    if sk.check_hartids = false then
      ([], some (.DiscontinuousHartIds i))
    else if sk.first_hartid < 0 then
      ([], some (.MissingBaseHartId i))
    else if sk.hart_count < 0 then
      ([], some (.MissingHartCount i))
    else
      let ev := InitEvent.realize_hart_array i ct sk.first_hartid
        sk.hart_count resetvec
      let rec_result := sockets_loop ct resetvec (i + 1) rest
      (ev :: rec_result.1, rec_result.2)

/-- The memory-map construction tail of `rhea_machine_init`
(rhea.c lines 91-108), in source order: mount DRAM (the externally
supplied RAM backing), create and mount the boot ROM, write the reset
blob, create and mount the SRAM. -/
def mount_events (ms : MachineState) : List InitEvent :=
  [ .mount "riscv.rhea.dram" (rhea_memmap .RHEA_DRAM).base ms.ram_size,
    .mount "riscv.rhea.mrom" (rhea_memmap .RHEA_ROM).base
      (rhea_memmap .RHEA_ROM).size,
    .write_blob "mrom.reset" (rhea_memmap .RHEA_ROM).base reset_vec_bytes,
    .mount "riscv.rhea.sram" (rhea_memmap .RHEA_SRAM).base
      (rhea_memmap .RHEA_SRAM).size ]

/-- `rhea_machine_init` (rhea.c lines 40-109): reject more than
`RHEA_SOCKETS_MAX` sockets, run the per-socket loop, then build the
memory map.  The result is the trace of events that happened before
completion or before the fatal `exit(1)`. -/
def rhea_machine_init (ms : MachineState) : List InitEvent × Option RheaError :=
  if RHEA_SOCKETS_MAX < ms.sockets.length then
    ([], some .TooManySockets)
  else
    let lr := sockets_loop ms.cpu_type (rhea_memmap .RHEA_ROM).base 0 ms.sockets
    match lr.2 with
    | some e => (lr.1, some e)
    | none => (lr.1 ++ mount_events ms, none)

/-- The static machine metadata set by `rhea_machine_class_init`
(rhea.c lines 111-127). -/
structure MachineClassDesc where
  desc : String
  max_cpus : Nat
  default_cpu_type : String
  numa_mem_supported : Bool
  cpu_cluster_has_numa_boundary : Bool
  default_ram_id : String
  default_ram_size : Nat
deriving DecidableEq

/-- Modelled from the spec: an opaque identifier for the default
processor type `TYPE_RISCV_CPU_BASE` (the processor implementation is
an external collaborator; only the identity of the string matters). -/
def TYPE_RISCV_CPU_BASE : String := "riscv-base-cpu"

/-- The `MachineClass` fields assigned in `rhea_machine_class_init`. -/
def rhea_machine_class : MachineClassDesc :=
  { desc := "RISC-V Rhea Machine"
    max_cpus := RHEA_RISCV_CPUS_MAX
    default_cpu_type := TYPE_RISCV_CPU_BASE
    numa_mem_supported := true
    cpu_cluster_has_numa_boundary := true
    default_ram_id := "riscv.rhea.dram"
    default_ram_size := (rhea_memmap .RHEA_DRAM).size }

/-- Modelled from the spec: the outer machine framework rejects a
configuration requesting more harts than `mc->max_cpus` before the
board's init entry point runs (the hart_limit of
`validate(topology, socket_limit, hart_limit)`); otherwise bring-up
proceeds with `rhea_machine_init`. -/
def machine_bringup (ms : MachineState) : List InitEvent × Option RheaError :=
  if rhea_machine_class.max_cpus < ms.smp_cpus then
    ([], some .TooManyHarts)
  else
    rhea_machine_init ms

/-- Modelled from the spec: the topology provider's answers for a
socket whose hart-id list is `ids` — contiguity holds when the ids are
exactly the arithmetic run starting at the first id; the base hart id
is the first id (not found when the socket is empty); the hart count
is the number of ids (not found when the socket is empty). -/
def socket_of_hartids (ids : List Nat) : SocketInfo :=
  { check_hartids :=
      match ids with
      | [] => true
      | b :: _ => ids == List.range' b ids.length
    first_hartid :=
      match ids with
      | [] => -1
      | b :: _ => (b : Int)
    hart_count := if ids.isEmpty then -1 else (ids.length : Int) }

/-- The default configuration: 1 socket, 1 hart with hart id 0, the
default processor type, the default RAM size. -/
def default_ms : MachineState :=
  { sockets := [socket_of_hartids [0]]
    cpu_type := TYPE_RISCV_CPU_BASE
    smp_cpus := 1
    ram_size := rhea_machine_class.default_ram_size }

/-- The (base, size) pairs of the mount events of a trace. -/
def mounted_ranges (tr : List InitEvent) : List (Nat × Nat) :=
  tr.filterMap fun e =>
    match e with
    | .mount _ b s => some (b, s)
    | _ => none

/-- Two half-open ranges [a.1, a.1+a.2) and [b.1, b.1+b.2) do not
intersect. -/
def ranges_disjoint (a b : Nat × Nat) : Prop :=
  a.1 + a.2 ≤ b.1 ∨ b.1 + b.2 ≤ a.1

instance : DecidablePred fun p : (Nat × Nat) × Nat × Nat =>
    ranges_disjoint p.1 p.2 := fun p => by
  unfold ranges_disjoint
  exact instDecidableOr

/-- The socket indices at which the fixed-capacity array `s->soc` is
accessed: exactly the iterations that reach the configuration and
realization of a hart array. -/
def soc_access_indices (tr : List InitEvent) : List Nat :=
  tr.filterMap fun e =>
    match e with
    | .realize_hart_array i _ _ _ _ => some i
    | _ => none

/-- The realization events of a trace. -/
def realize_events (tr : List InitEvent) : List InitEvent :=
  tr.filter is_realize

theorem init_too_many (ms : MachineState)
    (h : RHEA_SOCKETS_MAX < ms.sockets.length) :
    rhea_machine_init ms = ([], some .TooManySockets) := by
  simp [rhea_machine_init, h]

theorem init_nil (ms : MachineState) (h : ms.sockets = []) :
    rhea_machine_init ms = (mount_events ms, none) := by
  simp [rhea_machine_init, h, sockets_loop, RHEA_SOCKETS_MAX]

theorem init_single (ms : MachineState) (sk : SocketInfo)
    (h : ms.sockets = [sk]) :
    rhea_machine_init ms =
      if sk.check_hartids = false then ([], some (.DiscontinuousHartIds 0))
      else if sk.first_hartid < 0 then ([], some (.MissingBaseHartId 0))
      else if sk.hart_count < 0 then ([], some (.MissingHartCount 0))
      else
        (InitEvent.realize_hart_array 0 ms.cpu_type sk.first_hartid
            sk.hart_count (rhea_memmap .RHEA_ROM).base :: mount_events ms,
          none) := by
  simp only [rhea_machine_init, h, List.length_singleton, RHEA_SOCKETS_MAX,
    sockets_loop]
  by_cases h1 : sk.check_hartids = false
  · simp [h1]
  · by_cases h2 : sk.first_hartid < 0
    · simp [h1, h2]
    · by_cases h3 : sk.hart_count < 0
      · simp [h1, h2, h3, sockets_loop]
      · simp [h1, h2, h3, sockets_loop]

theorem init_success_shape (ms : MachineState)
    (h : (rhea_machine_init ms).2 = none) :
    (ms.sockets = [] ∧ (rhea_machine_init ms).1 = mount_events ms) ∨
    ∃ sk, ms.sockets = [sk] ∧
      (rhea_machine_init ms).1 =
        InitEvent.realize_hart_array 0 ms.cpu_type sk.first_hartid
          sk.hart_count (rhea_memmap .RHEA_ROM).base :: mount_events ms := by
  rcases hms : ms.sockets with _ | ⟨sk, rest⟩
  · left
    exact ⟨rfl, by rw [init_nil ms hms]⟩
  · rcases rest with _ | ⟨sk2, rest2⟩
    · right
      refine ⟨sk, rfl, ?_⟩
      have hi := init_single ms sk hms
      rw [hi] at h ⊢
      by_cases h1 : sk.check_hartids = false
      · simp [h1] at h
      · by_cases h2 : sk.first_hartid < 0
        · simp [h1, h2] at h
        · by_cases h3 : sk.hart_count < 0
          · simp [h1, h2, h3] at h
          · simp [h1, h2, h3]
    · have hlen : RHEA_SOCKETS_MAX < ms.sockets.length := by
        rw [hms]
        simp [RHEA_SOCKETS_MAX]
      rw [init_too_many ms hlen] at h
      simp at h

/-- A configuration requesting 5 harts on the single socket
(hart ids 0..4). -/
def five_hart_ms : MachineState :=
  { sockets := [socket_of_hartids [0, 1, 2, 3, 4]]
    cpu_type := TYPE_RISCV_CPU_BASE
    smp_cpus := 5
    ram_size := rhea_machine_class.default_ram_size }

/-- C3: the boot seeder writes a fixed 4-byte little-endian
instruction (the branch-to-self word 0x0000006f) at the reset address,
so after seeding any ROM at reset address 0x0 the bytes at the ROM
base are exactly 6F 00 00 00. -/
theorem seed_writes_reset_instruction (rom : Nat → Nat) :
    (List.range 4).map (seed rom 0) = u32_le_bytes 0x0000006f ∧
    u32_le_bytes 0x0000006f = [0x6F, 0x00, 0x00, 0x00] := by
  constructor
  · show [seed rom 0 0, seed rom 0 1, seed rom 0 2, seed rom 0 3] = _
    simp [seed, apply_blob, reset_vec_bytes, reset_vec, u32_le_bytes]
  · decide

/-- Witness for C3 at the zero-filled ROM. -/
theorem seed_writes_reset_instruction_witness :
    (List.range 4).map (seed zero_rom 0) = u32_le_bytes 0x0000006f ∧
    u32_le_bytes 0x0000006f = [0x6F, 0x00, 0x00, 0x00] :=
  seed_writes_reset_instruction zero_rom

/-- C7: requesting hart_count = 5 on the single socket fails bring-up
with the hart-limit error (max_cpus = RHEA_RISCV_CPUS_MAX = 4), and
the failure happens before any memory region is mounted: the event
trace of the rejected bring-up contains no mounted range at all. -/
theorem hart_limit_rejects_before_mount :
    machine_bringup five_hart_ms = ([], some .TooManyHarts) ∧
    mounted_ranges (machine_bringup five_hart_ms).1 = [] := by
  constructor <;> decide

/-- C8: seeding is idempotent (seeding the same ROM at the same reset
address twice yields the same bytes as seeding once) and pure
(identical inputs always produce identical ROM bytes). -/
theorem seed_idempotent_pure :
    (∀ (rom : Nat → Nat) (a : Nat), seed (seed rom a) a = seed rom a) ∧
    (∀ (rom1 rom2 : Nat → Nat) (a1 a2 : Nat),
      rom1 = rom2 → a1 = a2 → seed rom1 a1 = seed rom2 a2) := by
  constructor
  · intro rom a
    funext off
    by_cases h : a ≤ off ∧ off < a + reset_vec_bytes.length
    · simp [seed, apply_blob, h]
    · simp [seed, apply_blob, h]
  · intro rom1 rom2 a1 a2 h1 h2
    rw [h1, h2]

/-- Witness for C8 at a concrete ROM and reset address. -/
theorem seed_idempotent_pure_witness :
    seed (seed zero_rom 0) 0 = seed zero_rom 0 ∧
    seed zero_rom 0 = seed zero_rom 0 :=
  ⟨seed_idempotent_pure.1 zero_rom 0,
   seed_idempotent_pure.2 zero_rom zero_rom 0 0 rfl rfl⟩

/-- C10: the reset blob is 16 bytes (four 32-bit words, only the first
initialized): after seeding, offsets 0..3 hold 6F 00 00 00, offsets
4..15 hold zero (even over a non-zero ROM background, showing the
zeros come from the blob), and offset 16 is untouched. -/
theorem reset_blob_is_sixteen_bytes :
    reset_vec_bytes.length = 16 ∧
    reset_vec_bytes = 0x6F :: List.replicate 15 0 ∧
    (List.range 16).map (seed (fun _ => 0xAA) 0) = reset_vec_bytes ∧
    seed (fun _ => 0xAA) 0 16 = 0xAA := by
  refine ⟨by decide, by decide, by decide, by decide⟩

/-- C4: topology validation fails with TooManySockets when the socket
count exceeds RHEA_SOCKETS_MAX = 1, with DiscontinuousHartIds when the
socket's hart ids are not contiguous, with MissingBaseHartId when the
base hart id cannot be found, and with MissingHartCount when the hart
count cannot be found; any failure aborts construction with an empty
event trace — no partial machine is ever produced. -/
theorem validation_failure_modes (ms : MachineState) :
    (RHEA_SOCKETS_MAX < ms.sockets.length →
      rhea_machine_init ms = ([], some .TooManySockets)) ∧
    (∀ sk, ms.sockets = [sk] →
      (sk.check_hartids = false →
        rhea_machine_init ms = ([], some (.DiscontinuousHartIds 0))) ∧
      (sk.check_hartids = true → sk.first_hartid < 0 →
        rhea_machine_init ms = ([], some (.MissingBaseHartId 0))) ∧
      (sk.check_hartids = true → 0 ≤ sk.first_hartid → sk.hart_count < 0 →
        rhea_machine_init ms = ([], some (.MissingHartCount 0)))) ∧
    ((rhea_machine_init ms).2.isSome → (rhea_machine_init ms).1 = []) := by
  refine ⟨init_too_many ms, ?_, ?_⟩
  · intro sk hsk
    have hi := init_single ms sk hsk
    refine ⟨?_, ?_, ?_⟩
    · intro h1
      rw [hi]
      simp [h1]
    · intro h1 h2
      rw [hi]
      simp [h1, h2]
    · intro h1 h2 h3
      have h2n : ¬ sk.first_hartid < 0 := not_lt.mpr h2
      rw [hi]
      simp [h1, h2n, h3]
  · intro hsome
    rcases hms : ms.sockets with _ | ⟨sk, rest⟩
    · rw [init_nil ms hms] at hsome
      simp at hsome
    · rcases rest with _ | ⟨sk2, rest2⟩
      · have hi := init_single ms sk hms
        rw [hi] at hsome ⊢
        by_cases h1 : sk.check_hartids = false
        · simp [h1]
        · by_cases h2 : sk.first_hartid < 0
          · simp [h1, h2]
          · by_cases h3 : sk.hart_count < 0
            · simp [h1, h2, h3]
            · simp [h1, h2, h3] at hsome
      · have hlen : RHEA_SOCKETS_MAX < ms.sockets.length := by
          rw [hms]
          simp [RHEA_SOCKETS_MAX]
        rw [init_too_many ms hlen]

/-- Witness for C4: each failure mode at a concrete machine state, and
the empty trace on a failing state. -/
theorem validation_failure_modes_witness :
    rhea_machine_init ⟨[⟨true, 0, 1⟩, ⟨true, 1, 1⟩], "c", 2, 0⟩ =
      ([], some .TooManySockets) ∧
    rhea_machine_init ⟨[⟨false, 0, 1⟩], "c", 1, 0⟩ =
      ([], some (.DiscontinuousHartIds 0)) ∧
    rhea_machine_init ⟨[⟨true, -1, 1⟩], "c", 1, 0⟩ =
      ([], some (.MissingBaseHartId 0)) ∧
    rhea_machine_init ⟨[⟨true, 0, -1⟩], "c", 1, 0⟩ =
      ([], some (.MissingHartCount 0)) ∧
    (rhea_machine_init ⟨[⟨false, 0, 1⟩], "c", 1, 0⟩).1 = [] :=
  ⟨(validation_failure_modes _).1 (by decide),
   ((validation_failure_modes _).2.1 _ rfl).1 rfl,
   ((validation_failure_modes _).2.1 _ rfl).2.1 rfl (by decide),
   ((validation_failure_modes _).2.1 _ rfl).2.2 rfl (by decide) (by decide),
   (validation_failure_modes _).2.2 (by decide)⟩

/-- C6: for a topology of one socket whose hart ids are the contiguous
ascending run of length n starting at base b (n > 0), validation
succeeds and the socket is realized with exactly that base hart id and
hart count. -/
theorem contiguous_topology_validates (ct : String) (sc rs b n : Nat)
    (hn : 0 < n) :
    rhea_machine_init ⟨[socket_of_hartids (List.range' b n)], ct, sc, rs⟩ =
      (InitEvent.realize_hart_array 0 ct (b : Int) (n : Int)
          (rhea_memmap .RHEA_ROM).base ::
        mount_events ⟨[socket_of_hartids (List.range' b n)], ct, sc, rs⟩,
       none) := by
  obtain ⟨m, rfl⟩ : ∃ m, n = m + 1 := ⟨n - 1, by omega⟩
  have hrange : List.range' b (m + 1) = b :: List.range' (b + 1) m :=
    List.range'_succ b m 1
  have hsk : socket_of_hartids (List.range' b (m + 1)) =
      { check_hartids := true, first_hartid := (b : Int),
        hart_count := ((m + 1 : Nat) : Int) } := by
    rw [hrange]
    simp [socket_of_hartids, List.range'_succ]
  have hi := init_single
    ⟨[socket_of_hartids (List.range' b (m + 1))], ct, sc, rs⟩
    (socket_of_hartids (List.range' b (m + 1))) rfl
  rw [hsk] at hi
  rw [hsk, hi]
  have hb : ¬ ((b : Int) < 0) := not_lt.mpr (Int.natCast_nonneg b)
  have hc : ¬ (((m + 1 : Nat) : Int) < 0) :=
    not_lt.mpr (Int.natCast_nonneg (m + 1))
  simp [hb, hc]
  omega

/-- Witness for C6 at base 2, count 3. -/
theorem contiguous_topology_validates_witness :
    rhea_machine_init ⟨[socket_of_hartids (List.range' 2 3)], "c", 1, 4096⟩ =
      (InitEvent.realize_hart_array 0 "c" (2 : Int) (3 : Int)
          (rhea_memmap .RHEA_ROM).base ::
        mount_events ⟨[socket_of_hartids (List.range' 2 3)], "c", 1, 4096⟩,
       none) :=
  contiguous_topology_validates "c" 1 4096 2 3 (by decide)

/-- C9: for every machine state that passes the socket-count check
(socket count ≤ RHEA_SOCKETS_MAX = 1), every index used to access the
fixed-capacity array s->soc in the per-socket loop is below
RHEA_SOCKETS_MAX; no access is out of bounds. -/
theorem soc_index_in_bounds (ms : MachineState)
    (h : ms.sockets.length ≤ RHEA_SOCKETS_MAX) :
    ∀ i ∈ soc_access_indices (rhea_machine_init ms).1,
      i < RHEA_SOCKETS_MAX := by
  intro i hi
  rcases hms : ms.sockets with _ | ⟨sk, rest⟩
  · rw [init_nil ms hms] at hi
    simp [soc_access_indices, mount_events] at hi
  · rcases rest with _ | ⟨sk2, rest2⟩
    · have hx := init_single ms sk hms
      rw [hx] at hi
      by_cases h1 : sk.check_hartids = false
      · simp [h1, soc_access_indices] at hi
      · by_cases h2 : sk.first_hartid < 0
        · simp [h1, h2, soc_access_indices] at hi
        · by_cases h3 : sk.hart_count < 0
          · simp [h1, h2, h3, soc_access_indices] at hi
          · simp [h1, h2, h3, soc_access_indices, mount_events] at hi
            simp [hi, RHEA_SOCKETS_MAX]
    · rw [hms] at h
      simp [RHEA_SOCKETS_MAX] at h

/-- Witness for C9: the default configuration accesses s->soc[0], and
0 is in bounds. -/
theorem soc_index_in_bounds_witness :
    (0 ∈ soc_access_indices (rhea_machine_init default_ms).1) ∧
    0 < RHEA_SOCKETS_MAX :=
  ⟨by decide, soc_index_in_bounds default_ms (by decide) 0 (by decide)⟩

/-- C2: after a successful build of the memory map (with the default
570 MiB RAM backing), the mounted ranges are exactly DRAM
[0x40000000, 0x40000000+570MiB), ROM [0x0, 0x40000) and SRAM
[0x100000, 0x180000); they are pairwise disjoint; and every mounted
range is disjoint from the reserved peripheral window
[0x06000000, 0x06000100), which is never mounted. -/
theorem memmap_ranges_exact (ms : MachineState)
    (hram : ms.ram_size = 570 * MiB)
    (h : (rhea_machine_init ms).2 = none) :
    mounted_ranges (rhea_machine_init ms).1 =
      [(0x40000000, 570 * MiB), (0x0, 0x40000), (0x100000, 0x80000)] ∧
    List.Pairwise ranges_disjoint (mounted_ranges (rhea_machine_init ms).1) ∧
    ∀ r ∈ mounted_ranges (rhea_machine_init ms).1,
      ranges_disjoint r
        ((rhea_memmap .RHEA_UART0).base, (rhea_memmap .RHEA_UART0).size) := by
  have hm : mounted_ranges (rhea_machine_init ms).1 =
      [(0x40000000, 570 * MiB), (0x0, 0x40000), (0x100000, 0x80000)] := by
    rcases init_success_shape ms h with ⟨hnil, htr⟩ | ⟨sk, hsk, htr⟩ <;>
      rw [htr] <;>
      simp [mounted_ranges, mount_events, rhea_memmap, hram, KiB, MiB]
  refine ⟨hm, ?_, ?_⟩
  · rw [hm]
    norm_num [List.pairwise_cons, ranges_disjoint, MiB]
  · rw [hm]
    intro r hr
    simp only [List.mem_cons, List.not_mem_nil, or_false] at hr
    rcases hr with rfl | rfl | rfl <;>
      norm_num [ranges_disjoint, rhea_memmap, MiB]

/-- Witness for C2 at the default configuration. -/
theorem memmap_ranges_exact_witness :
    mounted_ranges (rhea_machine_init default_ms).1 =
      [(0x40000000, 570 * MiB), (0x0, 0x40000), (0x100000, 0x80000)] :=
  (memmap_ranges_exact default_ms (by decide) (by decide)).1

/-- C5: every successfully validated socket is realized as exactly one
hart array parameterized by the machine's cpu type, the socket's base
hart id and hart count, and reset address equal to the ROM base; and
under the default configuration (1 socket, 1 hart, default cpu type)
bring-up succeeds with one realized hart array with hart id 0 and
reset address 0x0, and the seeded ROM holds bytes 6F 00 00 00 at
offset 0. -/
theorem hart_array_construction (ms : MachineState) (sk : SocketInfo)
    (hsk : ms.sockets = [sk]) (h : (rhea_machine_init ms).2 = none) :
    realize_events (rhea_machine_init ms).1 =
      [InitEvent.realize_hart_array 0 ms.cpu_type sk.first_hartid
        sk.hart_count (rhea_memmap .RHEA_ROM).base] ∧
    rhea_machine_init default_ms =
      ([InitEvent.realize_hart_array 0 TYPE_RISCV_CPU_BASE 0 1 0,
        InitEvent.mount "riscv.rhea.dram" 0x40000000 (570 * MiB),
        InitEvent.mount "riscv.rhea.mrom" 0x0 0x40000,
        InitEvent.write_blob "mrom.reset" 0x0 reset_vec_bytes,
        InitEvent.mount "riscv.rhea.sram" 0x100000 0x80000], none) ∧
    (List.range 4).map (seed zero_rom 0) = [0x6F, 0x00, 0x00, 0x00] := by
  refine ⟨?_, by decide, by decide⟩
  rcases init_success_shape ms h with ⟨hnil, htr⟩ | ⟨sk2, hsk2, htr⟩
  · rw [hsk] at hnil
    exact absurd hnil (by simp)
  · rw [hsk] at hsk2
    have hskeq : sk2 = sk := by
      injection hsk2.symm
    subst hskeq
    rw [htr]
    simp [realize_events, is_realize, mount_events, List.filter]

/-- Witness for C5 at the default configuration. -/
theorem hart_array_construction_witness :
    realize_events (rhea_machine_init default_ms).1 =
      [InitEvent.realize_hart_array 0 default_ms.cpu_type
        (socket_of_hartids [0]).first_hartid
        (socket_of_hartids [0]).hart_count (rhea_memmap .RHEA_ROM).base] :=
  (hart_array_construction default_ms (socket_of_hartids [0]) rfl
    (by decide)).1

/-- The temporal ordering claimed by C1, over the construction trace:
on every successful bring-up, the ROM mount precedes the reset-blob
write and precedes every hart-array realization. -/
def rom_mount_precedes_bringup : Prop :=
  ∀ ms : MachineState, (rhea_machine_init ms).2 = none →
    ((rhea_machine_init ms).1.findIdx is_rom_mount <
      (rhea_machine_init ms).1.findIdx is_blob_write) ∧
    ∀ j, is_realize ((rhea_machine_init ms).1.getD j dummy_event) = true →
      (rhea_machine_init ms).1.findIdx is_rom_mount < j

/-- C1 counterexample: in the successful default bring-up the hart
array is realized at trace position 0, before the ROM mount at
position 2, so the claimed ordering is false. -/
theorem rom_mount_order_counterexample : ¬ rom_mount_precedes_bringup := by
  intro hcl
  have h0 := (hcl default_ms (by decide)).2 0 (by decide)
  exact absurd h0 (by decide)

/-- C1 amended: on every successful bring-up the ROM mount does
precede the reset-blob write, but every hart-array realization
precedes the ROM mount — sockets are realized before the memory map
is built. -/
theorem rom_mount_order (ms : MachineState)
    (h : (rhea_machine_init ms).2 = none) :
    ((rhea_machine_init ms).1.findIdx is_rom_mount <
      (rhea_machine_init ms).1.findIdx is_blob_write) ∧
    ∀ j, is_realize ((rhea_machine_init ms).1.getD j dummy_event) = true →
      j < (rhea_machine_init ms).1.findIdx is_rom_mount := by
  rcases init_success_shape ms h with ⟨hnil, htr⟩ | ⟨sk, hsk, htr⟩
  · rw [htr]
    constructor
    · simp [mount_events, List.findIdx_cons, is_rom_mount, is_blob_write]
    · intro j hj
      exfalso
      rcases j with _ | _ | _ | _ | j
      · simp [mount_events, is_realize] at hj
      · simp [mount_events, is_realize] at hj
      · simp [mount_events, is_realize] at hj
      · simp [mount_events, is_realize] at hj
      · have hd : (mount_events ms).getD (j + 4) dummy_event = dummy_event :=
          List.getD_eq_default _ _ (by simp [mount_events])
        rw [hd] at hj
        simp [dummy_event, is_realize] at hj
  · rw [htr]
    have hidx : (InitEvent.realize_hart_array 0 ms.cpu_type sk.first_hartid
        sk.hart_count (rhea_memmap .RHEA_ROM).base ::
        mount_events ms).findIdx is_rom_mount = 2 := by
      simp [mount_events, List.findIdx_cons, is_rom_mount, is_realize]
    constructor
    · rw [hidx]
      simp [mount_events, List.findIdx_cons, is_rom_mount, is_blob_write,
        is_realize]
    · intro j hj
      rw [hidx]
      rcases j with _ | _ | _ | _ | _ | j
      · omega
      · simp [mount_events, is_realize] at hj
      · simp [mount_events, is_realize] at hj
      · simp [mount_events, is_realize] at hj
      · simp [mount_events, is_realize] at hj
      · exfalso
        have hd : (InitEvent.realize_hart_array 0 ms.cpu_type sk.first_hartid
            sk.hart_count (rhea_memmap .RHEA_ROM).base ::
            mount_events ms).getD (j + 5) dummy_event = dummy_event :=
          List.getD_eq_default _ _ (by simp [mount_events])
        rw [hd] at hj
        simp [dummy_event, is_realize] at hj

/-- Witness for the amended C1 at the default configuration. -/
theorem rom_mount_order_witness :
    (rhea_machine_init default_ms).1.findIdx is_rom_mount <
      (rhea_machine_init default_ms).1.findIdx is_blob_write :=
  (rom_mount_order default_ms (by decide)).1

end Rhea
